import Mathlib

/-!
Shallow embedding of the crypto short-strangle trading engine
(`backend/app/services/trading_engine.py` and
`backend/app/services/delta_websocket_client.py`) and proofs about its
exit-condition evaluation, trailing-stop state updates, P&L formulas,
order-execution strategy, control loop, contract selection, entry
scheduling, quote caching and percentage normalization.

Python floats are modelled as rationals (`ℚ`), Python `None`-able scalar
config/message values as the inductive `PyVal`, and stateful methods as
pure functions on explicit state records.
-/

namespace StrangleEngine

/-- A Python scalar value as the engine's config and message handling sees
it: `null` is Python `None`, `num q` a numeric value, `nonnum` a value on
which `float(...)` raises (e.g. a non-numeric string).  Non-numeric strings
are truthy in Python, which matters for the `x or y` idiom. -/
inductive PyVal where
  | null
  | num (q : ℚ)
  | nonnum
deriving DecidableEq, Repr

/-- Python truthiness of a `PyVal`: `None` is falsy, a number is falsy
iff it is zero, and a non-numeric (nonempty-string-like) value is truthy. -/
def pyTruthy : PyVal → Bool
  | .null => false
  | .num q => q ≠ 0
  | .nonnum => true

/-- Python `a or b` on scalar values. -/
def pyOr (a b : PyVal) : PyVal := if pyTruthy a then a else b

/-- Python `float(value)` wrapped in try/except, i.e. the partial
conversion used when parsing trailing rules (`float(trigger_str)`). -/
def toFloatOpt : PyVal → Option ℚ
  | .num q => some q
  | _ => none

/-- `TradingEngine._to_float(value, default)`: `float(value)` with the
default returned when conversion raises. -/
def toFloatD : PyVal → ℚ → ℚ
  | .num q, _ => q
  | _, d => d

/-- `TradingEngine._normalize_percent`: `None` and non-numeric values map
to `0`, a numeric value strictly between 0 and 1 is scaled by 100
(fraction → percent), and every other numeric value is returned
unchanged. -/
def normalizePercent : PyVal → ℚ
  | .null => 0
  | .nonnum => 0
  | .num q => if 0 < q ∧ q < 1 then q * 100 else q

/-- `TradingEngine._percent_from_amount`: percentage of `amount` relative
to `notional`, `0` when the notional is not positive. -/
def percentFromAmount (amount notional : ℚ) : ℚ :=
  if notional ≤ 0 then 0 else amount / notional * 100

/-- The exit reason strings produced by `_check_exit_conditions`:
`max_loss`, `max_profit` and `trailing_sl`. -/
inductive ExitReason where
  | max_loss
  | max_profit
  | trailing_sl
deriving DecidableEq, Repr

/-- The slice of `TradingConfiguration` consumed by
`_check_exit_conditions`: raw (not yet normalized) percentage thresholds
and the trailing-stop enable flag. -/
structure ExitConfig where
  max_loss_pct : PyVal
  max_profit_pct : PyVal
  trailing_sl_enabled : Bool
deriving Repr

/-- Body of `TradingEngine._check_exit_conditions` after the latest P&L
has been read from a nonempty `pnl_history` (rules evaluated in priority
order, first match wins). -/
def exitTrigger (config : ExitConfig) (trailingLevel latest notional : ℚ) :
    Option ExitReason :=
  if 0 < normalizePercent config.max_loss_pct ∧ 0 < notional ∧
      percentFromAmount latest notional ≤ -normalizePercent config.max_loss_pct then
    some ExitReason.max_loss
  else if 0 < normalizePercent config.max_loss_pct ∧ notional ≤ 0 ∧
      latest ≤ -normalizePercent config.max_loss_pct then
    some ExitReason.max_loss
  else if 0 < normalizePercent config.max_profit_pct ∧ 0 < notional ∧
      normalizePercent config.max_profit_pct ≤ percentFromAmount latest notional then
    some ExitReason.max_profit
  else if 0 < normalizePercent config.max_profit_pct ∧ notional ≤ 0 ∧
      normalizePercent config.max_profit_pct ≤ latest then
    some ExitReason.max_profit
  else if config.trailing_sl_enabled ∧ 0 < normalizePercent (PyVal.num trailingLevel) ∧
      0 < notional ∧
      percentFromAmount latest notional ≤ normalizePercent (PyVal.num trailingLevel) then
    some ExitReason.trailing_sl
  else if config.trailing_sl_enabled ∧ 0 < normalizePercent (PyVal.num trailingLevel) ∧
      notional ≤ 0 ∧ latest ≤ normalizePercent (PyVal.num trailingLevel) then
    some ExitReason.trailing_sl
  else
    none

/-- `TradingEngine._check_exit_conditions`: reads the latest P&L from the
runtime state's `pnl_history` (returning `none` when the history is empty)
and evaluates the exit rules on it. -/
def checkExitConditions (config : ExitConfig) (trailingLevel : ℚ)
    (pnlHistory : List ℚ) (notional : ℚ) : Option ExitReason :=
  match pnlHistory.getLast? with
  | none => none
  | some latest => exitTrigger config trailingLevel latest notional

/-- The slice of `TradingConfiguration` consumed by
`_update_trailing_state`: the enable flag and the raw trailing rules,
a mapping from trigger threshold to stop level (both still subject to
`float(...)` parsing and percent normalization). -/
structure TrailingConfig where
  trailing_sl_enabled : Bool
  trailing_rules : List (PyVal × PyVal)
deriving Repr

/-- The trailing-related fields of `StrategyRuntimeState` mutated by
`_update_trailing_state`. -/
structure TrailingState where
  max_profit_seen : ℚ
  max_profit_seen_pct : ℚ
  max_drawdown_seen : ℚ
  max_drawdown_seen_pct : ℚ
  trailing_level : ℚ
deriving DecidableEq, Repr

/-- One iteration of the rule scan in `_update_trailing_state`: a rule
whose trigger or stop level fails `float(...)` is skipped, and a rule
whose normalized trigger is at or below `maxProfitPct` raises the
accumulated level to at least its normalized stop level. -/
def levelStep (maxProfitPct acc : ℚ) (rule : PyVal × PyVal) : ℚ :=
  match toFloatOpt rule.1, toFloatOpt rule.2 with
  | some trigger, some sl =>
    if normalizePercent (PyVal.num trigger) ≤ maxProfitPct then
      max acc (normalizePercent (PyVal.num sl))
    else acc
  | _, _ => acc

/-- See `levelStep`: the whole rule scan, starting from level 0. -/
def applicableLevel (rules : List (PyVal × PyVal)) (maxProfitPct : ℚ) : ℚ :=
  rules.foldl (levelStep maxProfitPct) 0

/-- `TradingEngine._update_trailing_state`: update the max-profit-seen
metrics (absolute and %), the max-drawdown-seen metrics (absolute and %),
and — only when trailing is enabled — recompute the trailing level from
the rules against the updated max-profit-seen %. -/
def updateTrailingState (config : TrailingConfig) (st : TrailingState)
    (latestPnl notional : ℚ) : TrailingState :=
  let latestPct := percentFromAmount latestPnl notional
  let mps := max st.max_profit_seen latestPnl
  let mpsPct := max st.max_profit_seen_pct latestPct
  let ddAbs := max 0 (-latestPnl)
  let ddPct := max 0 (-latestPct)
  let mds := if st.max_drawdown_seen < ddAbs then ddAbs else st.max_drawdown_seen
  let mdsPct := if st.max_drawdown_seen_pct < ddPct then ddPct else st.max_drawdown_seen_pct
  if config.trailing_sl_enabled then
    { max_profit_seen := mps, max_profit_seen_pct := mpsPct,
      max_drawdown_seen := mds, max_drawdown_seen_pct := mdsPct,
      trailing_level := applicableLevel config.trailing_rules mpsPct }
  else
    { max_profit_seen := mps, max_profit_seen_pct := mpsPct,
      max_drawdown_seen := mds, max_drawdown_seen_pct := mdsPct,
      trailing_level := st.trailing_level }

/-- Python `str.lower()` (per-character lowercasing). -/
def pyLower (s : String) : String := ⟨s.data.map Char.toLower⟩

/-- The fields of a `PositionLedger` row consumed by the P&L
calculations: position side (`"short"`/`"long"`, compared
case-insensitively), entry price, and the stored quantity (run through
`_to_float(quantity, 0.0)`). -/
structure PositionLedger where
  side : String
  entry_price : ℚ
  quantity : PyVal
deriving Repr

/-- `TradingEngine._calculate_realized_pnl`: P&L of a closed position
from its exit price; `(entry − exit) × quantity × contract_size` for a
short, `(exit − entry) × quantity × contract_size` for a long, 0 for any
other side.  The contract size comes from the configuration
(`_config_contract_size`). -/
def calculateRealizedPnl (contractSize : ℚ) (position : PositionLedger)
    (exitPrice : ℚ) : ℚ :=
  if pyLower position.side = "short" then
    (position.entry_price - exitPrice) * toFloatD position.quantity 0 * contractSize
  else if pyLower position.side = "long" then
    (exitPrice - position.entry_price) * toFloatD position.quantity 0 * contractSize
  else 0

/-- `TradingEngine._calculate_unrealized`: same formulas with the mark
price substituted for the exit price. -/
def calculateUnrealized (position : PositionLedger) (markPrice contractSize : ℚ) : ℚ :=
  if pyLower position.side = "short" then
    (position.entry_price - markPrice) * toFloatD position.quantity 0 * contractSize
  else if pyLower position.side = "long" then
    (markPrice - position.entry_price) * toFloatD position.quantity 0 * contractSize
  else 0

/-- The observable outcome of one iteration body of
`TradingEngine._run_loop` (an entry attempt or a monitoring cycle):
it finishes normally — possibly setting the stop event, as
`_monitor_positions` does on an exit-condition match —, raises an
unexpected exception, or raises `asyncio.CancelledError`. -/
inductive CycleOutcome where
  | ok (requestStop : Bool)
  | raiseExc
  | cancelled
deriving DecidableEq, Repr

/-- How `_run_loop` ends: the stop event was observed set at the top of
the loop; an unexpected exception escaped an iteration and was logged by
the `except Exception` handler around the `while` (loop over, cleanup in
`finally`); a `CancelledError` was logged and re-raised; or the supplied
script ended with the loop still running. -/
inductive LoopEnd where
  | stopRequested
  | loopFailed
  | loopCancelled
  | stillRunning
deriving DecidableEq, Repr

/-- `TradingEngine._run_loop` over a script of per-iteration outcomes:
`while not stop_event.is_set()` runs iteration bodies; the whole `while`
sits inside a single `try`, whose `except Exception` (log, fall through
to cleanup) and `except CancelledError` (log, re-raise) are *outside*
the loop.  Returns how the loop ended and how many iterations ran. -/
def runLoop : Bool → List CycleOutcome → LoopEnd × ℕ
  | true, _ => (LoopEnd.stopRequested, 0)
  | false, [] => (LoopEnd.stillRunning, 0)
  | false, CycleOutcome.raiseExc :: _ => (LoopEnd.loopFailed, 1)
  | false, CycleOutcome.cancelled :: _ => (LoopEnd.loopCancelled, 1)
  | false, CycleOutcome.ok requestStop :: rest =>
    ((runLoop requestStop rest).1, (runLoop requestStop rest).2 + 1)

/-- The IST (exchange-local) offset from UTC, in minutes (+05:30). -/
def istOffsetMinutes : ℤ := 330

/-- Minutes per calendar day. -/
def minutesPerDay : ℤ := 1440

/-- `TradingEngine._compute_scheduled_entry`, with instants as minutes
since an epoch aligned to UTC midnight and the parsed `trade_time_ist`
as minutes into the day: `datetime.combine(current_ist.date(),
trade_time, tzinfo=IST)` is the start of the *current* IST day plus the
time of day, converted back to UTC.  No day is added when the
time-of-day has already passed (contrast `_compute_exit_time`). -/
def computeScheduledEntry (nowUtc todMinutes : ℤ) : ℤ :=
  (nowUtc + istOffsetMinutes) - (nowUtc + istOffsetMinutes) % minutesPerDay
    + todMinutes - istOffsetMinutes

/-- `TradingEngine._compute_exit_time`, same conventions: here the code
*does* roll the timestamp to the next day when the local time-of-day is
already past (`if exit_local <= current_ist: exit_local += timedelta(days=1)`). -/
def computeExitTime (nowUtc todMinutes : ℤ) : ℤ :=
  let nowIst := nowUtc + istOffsetMinutes
  let exitLocal := nowIst - nowIst % minutesPerDay + todMinutes
  (if exitLocal ≤ nowIst then exitLocal + minutesPerDay else exitLocal) - istOffsetMinutes

/-- Python `str.upper()` (per-character uppercasing). -/
def pyUpper (s : String) : String := ⟨s.data.map Char.toUpper⟩

/-- Python `a or b` on optional strings: an absent value and the empty
string are falsy. -/
def strOr (a b : Option String) : Option String :=
  match a with
  | some s => if s = "" then b else some s
  | none => b

/-- `OptionPriceStream._normalize_symbol`: uppercase when the value is a
string, otherwise the empty string. -/
def normalizeSymbol : Option String → String
  | some s => pyUpper s
  | none => ""

/-- `OptionPriceStream._safe_float`: `float(value)` wrapped in
try/except, `None` on failure. -/
def safeFloat : PyVal → Option ℚ := toFloatOpt

/-- The nested `quotes` payload a v2/ticker message may carry; each field
is absent (`null`), numeric, or non-numeric. -/
structure QuotesPayload where
  best_bid : PyVal
  bid : PyVal
  best_ask : PyVal
  ask : PyVal
  bid_size : PyVal
  best_bid_size : PyVal
  ask_size : PyVal
  best_ask_size : PyVal
deriving DecidableEq, Repr

/-- The fields of an accepted v2/ticker message that `_store_quote`
reads.  (The raw payload and timestamp bookkeeping are not modelled.) -/
structure TickerMessage where
  symbol : Option String
  product_symbol : Option String
  market : Option String
  mark_price : PyVal
  fair_price : PyVal
  last_price : PyVal
  close_price : PyVal
  best_bid_price : PyVal
  bid_price : PyVal
  best_ask_price : PyVal
  ask_price : PyVal
  best_bid_size : PyVal
  best_ask_size : PyVal
  quotes : Option QuotesPayload
deriving DecidableEq, Repr

/-- The quote record `_store_quote` builds and caches: every field comes
from the incoming message alone, absent fields becoming `none`. -/
structure Quote where
  symbol : String
  mark_price : Option ℚ
  last_price : Option ℚ
  best_bid : Option ℚ
  best_ask : Option ℚ
  best_bid_size : Option ℚ
  best_ask_size : Option ℚ
deriving DecidableEq, Repr

/-- The quote dict built by `_store_quote` from one message: bid/ask come
from the nested `quotes` payload when present (falling back through the
`or` chains of the code), and every field passes through `_safe_float`. -/
def buildQuote (symbol : String) (data : TickerMessage) : Quote :=
  match data.quotes with
  | some qp =>
    { symbol := symbol
      mark_price := safeFloat (pyOr data.mark_price data.fair_price)
      last_price := safeFloat (pyOr data.last_price data.close_price)
      best_bid := safeFloat (pyOr qp.best_bid
        (pyOr qp.bid (pyOr data.best_bid_price data.bid_price)))
      best_ask := safeFloat (pyOr qp.best_ask
        (pyOr qp.ask (pyOr data.best_ask_price data.ask_price)))
      best_bid_size := safeFloat (pyOr qp.bid_size qp.best_bid_size)
      best_ask_size := safeFloat (pyOr qp.ask_size qp.best_ask_size) }
  | none =>
    { symbol := symbol
      mark_price := safeFloat (pyOr data.mark_price data.fair_price)
      last_price := safeFloat (pyOr data.last_price data.close_price)
      best_bid := safeFloat (pyOr data.best_bid_price data.bid_price)
      best_ask := safeFloat (pyOr data.best_ask_price data.ask_price)
      best_bid_size := safeFloat data.best_bid_size
      best_ask_size := safeFloat data.best_ask_size }

/-- Python dict assignment `self._latest_quotes[symbol] = quote` on a
cache modelled as an insertion-ordered association list: replace the
entry for the key when present, else append. -/
def upsertQuote (symbol : String) (q : Quote) :
    List (String × Quote) → List (String × Quote)
  | [] => [(symbol, q)]
  | (k, v) :: rest =>
    if k = symbol then (symbol, q) :: rest else (k, v) :: upsertQuote symbol q rest

/-- `OptionPriceStream._store_quote`: normalize the symbol out of the
message's `symbol`/`product_symbol`/`market` fields (dropping the update
when empty), build a fresh quote record from the message alone and store
it under the symbol, replacing any previous entry wholesale. -/
def storeQuote (cache : List (String × Quote)) (data : TickerMessage) :
    List (String × Quote) :=
  let symbol := normalizeSymbol (strOr data.symbol (strOr data.product_symbol data.market))
  if symbol = "" then cache else upsertQuote symbol (buildQuote symbol data) cache

/-- The lowercased `state`/`status` field of an order-status response.
The code distinguishes `closed`/`filled` (done), and
`cancelled`/`canceled`/`rejected` (dead); `other` stands for any other
value, such as `"open"` or the empty string. -/
inductive OrderState where
  | closed
  | filled
  | cancelled
  | canceled
  | rejected
  | other
deriving DecidableEq, Repr

/-- The fields of a `get_order` status response read by
`_wait_for_fill_or_timeout`: raw `size` and `unfilled_size` values and
the lowercased state. -/
structure OrderStatus where
  size : PyVal
  unfilled_size : PyVal
  state : OrderState
deriving DecidableEq, Repr

/-- `size_value = _to_float(status.get("size") or expected_size, expected_size)`:
a missing, zero (falsy) or unparseable `size` falls back to the expected
size. -/
def sizeValue (st : OrderStatus) (expectedSize : ℚ) : ℚ :=
  toFloatD (pyOr st.size (PyVal.num expectedSize)) expectedSize

/-- `filled_amount = max(size_value - unfilled_value, 0.0)` with
`unfilled_value = _to_float(status.get("unfilled_size"), size_value)`. -/
def filledAmount (st : OrderStatus) (expectedSize : ℚ) : ℚ :=
  max (sizeValue st expectedSize - toFloatD st.unfilled_size (sizeValue st expectedSize)) 0

/-- `fill_ratio = filled_amount / size_value if size_value else 0.0`
(named `fillFrac` here). -/
def fillFracOf (st : OrderStatus) (expectedSize : ℚ) : ℚ :=
  if sizeValue st expectedSize = 0 then 0
  else filledAmount st expectedSize / sizeValue st expectedSize

/-- The `(filled_amount, completed, fill_ratio, status)` tuple returned by
`_wait_for_fill_or_timeout`. -/
structure WaitResult where
  filled : ℚ
  completed : Bool
  fillFrac : ℚ
  status : Option OrderStatus
deriving DecidableEq, Repr

/-- The post-loop path of `_wait_for_fill_or_timeout` (deadline expired or
`get_order` raised): recompute the fill from the last status seen, and
report completion iff the fill fraction reached the minimum. -/
def timeoutResult (expectedSize minFillFrac : ℚ) : Option OrderStatus → WaitResult
  | some st =>
    ⟨filledAmount st expectedSize,
      decide (minFillFrac ≤ fillFracOf st expectedSize),
      fillFracOf st expectedSize, some st⟩
  | none => ⟨0, false, 0, none⟩

/-- `TradingEngine._wait_for_fill_or_timeout` over the finite list of
statuses the polling loop would observe before its deadline (`none`
models a `get_order` exception, which logs and breaks out of the loop).
In-loop: a `closed`/`filled` state or a 100% fill completes with fraction
1; a fill at or above the minimum fraction completes with that fraction;
a dead state returns incomplete; otherwise poll again. -/
def waitForFill (expectedSize minFillFrac : ℚ) :
    List (Option OrderStatus) → Option OrderStatus → WaitResult
  | [], last => timeoutResult expectedSize minFillFrac last
  | none :: _, last => timeoutResult expectedSize minFillFrac last
  | some st :: rest, _ =>
    if st.state = OrderState.closed ∨ st.state = OrderState.filled ∨
        1 ≤ fillFracOf st expectedSize then
      ⟨filledAmount st expectedSize, true, 1, some st⟩
    else if minFillFrac ≤ fillFracOf st expectedSize then
      ⟨filledAmount st expectedSize, true, fillFracOf st expectedSize, some st⟩
    else if st.state = OrderState.cancelled ∨ st.state = OrderState.canceled ∨
        st.state = OrderState.rejected then
      ⟨filledAmount st expectedSize, false, fillFracOf st expectedSize, some st⟩
    else
      waitForFill expectedSize minFillFrac rest (some st)

/-- The exchange-side script for one limit attempt of
`_execute_order_strategy`: whether `place_order` succeeds, and the
statuses the fill wait then observes. -/
structure AttemptScript where
  submitOk : Bool
  polls : List (Option OrderStatus)
deriving Repr

/-- The exchange-side script for the market-fallback leg. -/
structure MarketScript where
  submitOk : Bool
  polls : List (Option OrderStatus)
deriving Repr

/-- An entry of the `attempts` audit list built by
`_execute_order_strategy`: one submitted order with its size, fill
fraction and filled amount. -/
inductive AttemptRecord where
  | limit (size fillFrac filled : ℚ)
  | market (size fillFrac filled : ℚ)
deriving DecidableEq, Repr

/-- The `mode` field of an `OrderStrategyOutcome`. -/
inductive ExecMode where
  | limit_orders
  | market_fallback
  | failed
deriving DecidableEq, Repr

/-- `OrderStrategyOutcome` (without the raw final status payload). -/
structure OrderStrategyOutcome where
  success : Bool
  mode : ExecMode
  filled_size : ℚ
  attempts : List AttemptRecord
deriving DecidableEq, Repr

/-- The `1e-8` slack under which a remaining quantity counts as fully
filled. -/
def epsFill : ℚ := 1 / 100000000

/-- The limit-attempt loop of `_execute_order_strategy` over the attempt
scripts (one per configured attempt): a failed submission just moves on;
otherwise the order is placed for the whole remaining quantity, its wait
result is appended to the audit list, a completed wait adds the fill and
shrinks the remaining quantity — returning early only when the remainder
drops within `epsFill` — and an incomplete wait cancels the resting order
and retries.  Returns the final remaining quantity, total filled and
audit list. -/
def execLimitAttempts (minFillFrac : ℚ) :
    List AttemptScript → ℚ → ℚ → List AttemptRecord → ℚ × ℚ × List AttemptRecord
  | [], remaining, totalFilled, recs => (remaining, totalFilled, recs)
  | s :: rest, remaining, totalFilled, recs =>
    if s.submitOk = false then execLimitAttempts minFillFrac rest remaining totalFilled recs
    else
      let w := waitForFill remaining minFillFrac s.polls none
      let recs' := recs ++ [AttemptRecord.limit remaining w.fillFrac w.filled]
      if w.completed then
        if max 0 (remaining - w.filled) ≤ epsFill then
          (max 0 (remaining - w.filled), totalFilled + w.filled, recs')
        else
          execLimitAttempts minFillFrac rest (max 0 (remaining - w.filled))
            (totalFilled + w.filled) recs'
      else
        if remaining ≤ epsFill then (remaining, totalFilled, recs')
        else execLimitAttempts minFillFrac rest remaining totalFilled recs'

/-- `TradingEngine._execute_order_strategy`: run the limit-attempt loop;
if the remaining quantity is within `epsFill` the outcome is a
`limit_orders` success with the total filled; otherwise fall back to one
market (IOC) order for the remainder — a failed market submission
reports failure with the quantity filled so far, and otherwise the
outcome is a `market_fallback` success exactly when the market wait
completed *and* the total filled across all legs is positive, else a
failure carrying that same total. -/
def executeOrderStrategy (minFillFrac quantity : ℚ)
    (limitScripts : List AttemptScript) (marketScript : MarketScript) :
    OrderStrategyOutcome :=
  match execLimitAttempts minFillFrac limitScripts quantity 0 [] with
  | (remaining, totalFilled, recs) =>
    if remaining ≤ epsFill then
      ⟨true, ExecMode.limit_orders, totalFilled, recs⟩
    else if marketScript.submitOk = false then
      ⟨false, ExecMode.failed, totalFilled, recs⟩
    else
      let w := waitForFill remaining 0 marketScript.polls none
      let recs' := recs ++ [AttemptRecord.market remaining w.fillFrac w.filled]
      if w.completed ∧ 0 < totalFilled + w.filled then
        ⟨true, ExecMode.market_fallback, totalFilled + w.filled, recs'⟩
      else
        ⟨false, ExecMode.failed, totalFilled + w.filled, recs'⟩

/-- The fields of a ticker payload entry that `_select_contracts` reads:
the greeks delta (absolute value is taken), the contract type string and
the parsed expiry date (as an abstract day number; date parsing itself is
not modelled).  The symbol identifies the contract. -/
structure Ticker where
  symbol : String
  delta : ℚ
  contract_type : String
  expiry_date : Option ℤ
deriving DecidableEq, Repr

/-- The fields of an `OptionContract` relevant to selection; `delta`
holds the absolute delta, as built by `_select_contracts`. -/
structure OptionContract where
  symbol : String
  delta : ℚ
  contract_type : String
  expiry_date : Option ℤ
deriving DecidableEq, Repr

/-- `target_delta = delta_low + (delta_high - delta_low) / 2 if
delta_high > delta_low else delta_high or delta_low or 0.1` (the
midpoint of the configured delta range in the usual case). -/
def targetDelta (delta_low delta_high : ℚ) : ℚ :=
  if delta_low < delta_high then delta_low + (delta_high - delta_low) / 2
  else if delta_high ≠ 0 then delta_high
  else if delta_low ≠ 0 then delta_low
  else 1/10

/-- The delta-range filter of `_select_contracts`: keep tickers with
`delta_low ≤ |delta| ≤ delta_high`, materialized as contracts carrying
the absolute delta. -/
def filteredContracts (delta_low delta_high : ℚ) (tickers : List Ticker) :
    List OptionContract :=
  tickers.filterMap fun t =>
    if delta_low ≤ |t.delta| ∧ |t.delta| ≤ delta_high then
      some ⟨t.symbol, |t.delta|, t.contract_type, t.expiry_date⟩
    else none

/-- Bucket key: `"call" if contract.contract_type == "call_options" else
"put"`. -/
def isCall (c : OptionContract) : Bool := c.contract_type = "call_options"

/-- The call bucket of the expiry group at `e`. -/
def callsAt (e : ℤ) (cs : List OptionContract) : List OptionContract :=
  cs.filter fun c => isCall c && c.expiry_date == some e

/-- The put bucket of the expiry group at `e`. -/
def putsAt (e : ℤ) (cs : List OptionContract) : List OptionContract :=
  cs.filter fun c => !isCall c && c.expiry_date == some e

/-- The distinct expiry dates appearing among the filtered contracts
(the keys of `expiry_groups`). -/
def expiryKeys (cs : List OptionContract) : List ℤ :=
  (cs.filterMap fun c => c.expiry_date).dedup

/-- The expiry-selection phase of `_select_contracts`: with a target
expiry, use it when its bucket has both a call and a put, else the
smallest later expiry with both; without one, the smallest expiry with
both legs at or after the minimum allowed date, falling back to the
smallest with both legs regardless of date. -/
def selectedExpiry (targetExpiry : Option ℤ) (minAllowedDate : ℤ)
    (cs : List OptionContract) : Option ℤ :=
  match targetExpiry with
  | some te =>
    if ¬ callsAt te cs = [] ∧ ¬ putsAt te cs = [] then some te
    else ((expiryKeys cs).filter fun e =>
      !decide (callsAt e cs = []) && !decide (putsAt e cs = []) && decide (te ≤ e)).min?
  | none =>
    let eligible := (expiryKeys cs).filter fun e =>
      !decide (callsAt e cs = []) && !decide (putsAt e cs = []) && decide (minAllowedDate ≤ e)
    if eligible = [] then
      ((expiryKeys cs).filter fun e =>
        !decide (callsAt e cs = []) && !decide (putsAt e cs = [])).min?
    else eligible.min?

/-- One comparison of `pick_best`'s `max(candidates, key=...)`: the
running best is replaced exactly when the challenger's key
`(delta, -|delta - target|)` is strictly greater — higher absolute delta
first, then smaller distance to the target delta. -/
def pickStep (target : ℚ) (best x : OptionContract) : OptionContract :=
  if best.delta < x.delta ∨
      (x.delta = best.delta ∧ |x.delta - target| < |best.delta - target|) then x
  else best

/-- `pick_best(candidates)`: Python `max` over the candidates by the key
above (first maximal element wins), `none` on an empty candidate list
(the code raises `RuntimeError` there). -/
def pickBest (target : ℚ) : List OptionContract → Option OptionContract
  | [] => none
  | c :: rest => some (rest.foldl (pickStep target) c)

/-- "Contract `b` is at least as good as `x`" under `pick_best`'s key:
`b` has a higher absolute delta, or the same delta and a distance to the
target delta that is no larger. -/
def goodAgainst (target : ℚ) (b x : OptionContract) : Prop :=
  x.delta ≤ b.delta ∧ (x.delta = b.delta → |b.delta - target| ≤ |x.delta - target|)

/-- The call candidate list fed to `pick_best`: the selected expiry's
call bucket when an expiry was chosen, otherwise all filtered calls,
falling back to the calls with no parsed expiry. -/
def callCandidates (se : Option ℤ) (filtered : List OptionContract) :
    List OptionContract :=
  match se with
  | some e => callsAt e filtered
  | none =>
    let cs := filtered.filter fun c => isCall c
    if cs = [] then filtered.filter fun c => isCall c && c.expiry_date.isNone else cs

/-- The put candidate list fed to `pick_best`, symmetric to
`callCandidates`. -/
def putCandidates (se : Option ℤ) (filtered : List OptionContract) :
    List OptionContract :=
  match se with
  | some e => putsAt e filtered
  | none =>
    let ps := filtered.filter fun c => !isCall c
    if ps = [] then filtered.filter fun c => !isCall c && c.expiry_date.isNone else ps

/-- `TradingEngine._select_contracts`: filter tickers into the delta
range (`none` when nothing survives, where the code raises), choose an
expiry, and pick the best call and put among that expiry's candidates
(`none` when a leg has no candidate, where the code raises). -/
def selectContracts (delta_low delta_high : ℚ) (targetExpiry : Option ℤ)
    (minAllowedDate : ℤ) (tickers : List Ticker) :
    Option (OptionContract × OptionContract) :=
  let filtered := filteredContracts delta_low delta_high tickers
  if filtered = [] then none
  else
    let target := targetDelta delta_low delta_high
    let se := selectedExpiry targetExpiry minAllowedDate filtered
    match pickBest target (callCandidates se filtered),
      pickBest target (putCandidates se filtered) with
    | some c, some p => some (c, p)
    | _, _ => none

/-! ## Theorems -/

/-- Helper: `exitTrigger` returns `max_loss` whenever the max-loss rule is
armed and its percentage (positive notional) or absolute (zero/negative
notional) condition holds; this is the highest-priority rule. -/
lemma exitTrigger_max_loss (config : ExitConfig) (trailingLevel latest notional : ℚ)
    (harm : 0 < normalizePercent config.max_loss_pct)
    (hcond : (0 < notional ∧
        percentFromAmount latest notional ≤ -normalizePercent config.max_loss_pct) ∨
      (notional ≤ 0 ∧ latest ≤ -normalizePercent config.max_loss_pct)) :
    exitTrigger config trailingLevel latest notional = some ExitReason.max_loss := by
  rcases hcond with ⟨hn, hle⟩ | ⟨hn, hle⟩
  · unfold exitTrigger
    rw [if_pos ⟨harm, hn, hle⟩]
  · unfold exitTrigger
    rcases lt_or_le 0 notional with h | h
    · exact absurd hn (not_le.mpr h)
    · rw [if_neg, if_pos ⟨harm, hn, hle⟩]
      rintro ⟨-, hn', -⟩
      exact absurd hn (not_le.mpr hn')

/-- Helper: when the max-loss rule does not fire, `exitTrigger` returns
`max_profit` whenever the max-profit rule is armed and its percentage
condition holds on a positive notional. -/
lemma exitTrigger_max_profit (config : ExitConfig) (trailingLevel latest notional : ℚ)
    (harm : 0 < normalizePercent config.max_profit_pct)
    (hn : 0 < notional)
    (hnoloss : ¬ (0 < normalizePercent config.max_loss_pct ∧
      percentFromAmount latest notional ≤ -normalizePercent config.max_loss_pct))
    (hge : normalizePercent config.max_profit_pct ≤ percentFromAmount latest notional) :
    exitTrigger config trailingLevel latest notional = some ExitReason.max_profit := by
  unfold exitTrigger
  rw [if_neg, if_neg, if_pos ⟨harm, hn, hge⟩]
  · rintro ⟨h1, h2, h3⟩
    exact absurd h2 (not_le.mpr hn)
  · rintro ⟨h1, h2, h3⟩
    exact hnoloss ⟨h1, h3⟩

/-- Helper: `exitTrigger` returns `trailing_sl` only when trailing is
enabled, the established trailing level is positive, and (on a positive
notional) the latest P&L percentage is at or below that level. -/
lemma exitTrigger_trailing_inv (config : ExitConfig) (trailingLevel latest notional : ℚ)
    (h : exitTrigger config trailingLevel latest notional = some ExitReason.trailing_sl) :
    config.trailing_sl_enabled = true ∧
      0 < normalizePercent (PyVal.num trailingLevel) ∧
      (0 < notional →
        percentFromAmount latest notional ≤ normalizePercent (PyVal.num trailingLevel)) := by
  unfold exitTrigger at h
  split_ifs at h with h1 h2 h3 h4 h5 h6 <;>
    first
      | exact ⟨h5.1, h5.2.1, fun _ => h5.2.2.2⟩
      | exact ⟨h6.1, h6.2.1, fun hn' => absurd h6.2.2.1 (not_le.mpr hn')⟩
      | simp at h

/-- Helper: a rule whose normalized percentage is not positive never
produces its exit reason. -/
lemma exitTrigger_disabled (config : ExitConfig) (trailingLevel latest notional : ℚ) :
    (normalizePercent config.max_loss_pct ≤ 0 →
      exitTrigger config trailingLevel latest notional ≠ some ExitReason.max_loss) ∧
    (normalizePercent config.max_profit_pct ≤ 0 →
      exitTrigger config trailingLevel latest notional ≠ some ExitReason.max_profit) ∧
    (normalizePercent (PyVal.num trailingLevel) ≤ 0 →
      exitTrigger config trailingLevel latest notional ≠ some ExitReason.trailing_sl) := by
  refine ⟨fun hle h => ?_, fun hle h => ?_, fun hle h => ?_⟩ <;>
    · unfold exitTrigger at h
      split_ifs at h with h1 h2 h3 h4 h5 h6 <;>
        first
          | (injection h with h; exact ExitReason.noConfusion h)
          | (exact absurd h1.1 (not_lt.mpr hle))
          | (exact absurd h2.1 (not_lt.mpr hle))
          | (exact absurd h3.1 (not_lt.mpr hle))
          | (exact absurd h4.1 (not_lt.mpr hle))
          | (exact absurd h5.2.1 (not_lt.mpr hle))
          | (exact absurd h6.2.1 (not_lt.mpr hle))

/-- C1: exit conditions are evaluated in priority order with the first
match winning.  On a nonempty P&L history with latest total P&L `latest`:
(1) max-loss fires when armed and the P&L percentage is at or below
`-max_loss_pct` (positive notional) or the absolute P&L is at or below
`-max_loss_pct` (zero notional); (2) max-profit fires, when max-loss did
not, once the P&L percentage reaches `max_profit_pct`; (3) `trailing_sl`
is returned only when trailing is enabled, a positive trailing level is
established and the P&L percentage is at or below that level; a rule
whose normalized percentage is `≤ 0` never fires.  With
`max_loss_pct = 5`, `max_profit_pct = 10`, trailing enabled at level 2%
and latest P&L% = −6% the result is `max_loss`, not `trailing_sl`. -/
theorem checkExitConditions_priority_order :
    (∀ (config : ExitConfig) (trailingLevel notional latest : ℚ) (hist : List ℚ),
      hist.getLast? = some latest →
      ((0 < normalizePercent config.max_loss_pct →
        ((0 < notional ∧
            percentFromAmount latest notional ≤ -normalizePercent config.max_loss_pct) ∨
          (notional = 0 ∧ latest ≤ -normalizePercent config.max_loss_pct)) →
        checkExitConditions config trailingLevel hist notional = some ExitReason.max_loss) ∧
      (0 < normalizePercent config.max_profit_pct → 0 < notional →
        ¬ (0 < normalizePercent config.max_loss_pct ∧
          percentFromAmount latest notional ≤ -normalizePercent config.max_loss_pct) →
        normalizePercent config.max_profit_pct ≤ percentFromAmount latest notional →
        checkExitConditions config trailingLevel hist notional = some ExitReason.max_profit) ∧
      (checkExitConditions config trailingLevel hist notional = some ExitReason.trailing_sl →
        config.trailing_sl_enabled = true ∧
          0 < normalizePercent (PyVal.num trailingLevel) ∧
          (0 < notional →
            percentFromAmount latest notional ≤ normalizePercent (PyVal.num trailingLevel))) ∧
      (normalizePercent config.max_loss_pct ≤ 0 →
        checkExitConditions config trailingLevel hist notional ≠ some ExitReason.max_loss) ∧
      (normalizePercent config.max_profit_pct ≤ 0 →
        checkExitConditions config trailingLevel hist notional ≠ some ExitReason.max_profit) ∧
      (normalizePercent (PyVal.num trailingLevel) ≤ 0 →
        checkExitConditions config trailingLevel hist notional ≠ some ExitReason.trailing_sl))) ∧
    checkExitConditions ⟨PyVal.num 5, PyVal.num 10, true⟩ 2 [-6] 100 =
      some ExitReason.max_loss := by
  constructor
  · intro config trailingLevel notional latest hist hlast
    have hck : checkExitConditions config trailingLevel hist notional =
        exitTrigger config trailingLevel latest notional := by
      unfold checkExitConditions
      rw [hlast]
    rw [hck]
    refine ⟨?_, ?_, ?_, ?_, ?_, ?_⟩
    · intro harm hcond
      refine exitTrigger_max_loss config trailingLevel latest notional harm ?_
      rcases hcond with h | ⟨hz, hle⟩
      · exact Or.inl h
      · exact Or.inr ⟨le_of_eq hz, hle⟩
    · exact fun harm hn hnoloss hge =>
        exitTrigger_max_profit config trailingLevel latest notional harm hn hnoloss hge
    · exact exitTrigger_trailing_inv config trailingLevel latest notional
    · exact (exitTrigger_disabled config trailingLevel latest notional).1
    · exact (exitTrigger_disabled config trailingLevel latest notional).2.1
    · exact (exitTrigger_disabled config trailingLevel latest notional).2.2
  · show checkExitConditions _ _ _ _ = _
    unfold checkExitConditions exitTrigger
    norm_num [normalizePercent, percentFromAmount]

/-- Witness for C1: instantiating the priority-order theorem at
`max_loss_pct = 5`, notional 100, latest P&L −6 yields `max_loss`. -/
theorem checkExitConditions_priority_order_witness :
    checkExitConditions ⟨PyVal.num 5, PyVal.num 10, true⟩ 2 [-6] 100 =
      some ExitReason.max_loss :=
  (checkExitConditions_priority_order.1 ⟨PyVal.num 5, PyVal.num 10, true⟩ 2 100 (-6) [-6]
      rfl).1 (by norm_num [normalizePercent])
    (Or.inl ⟨by norm_num, by norm_num [percentFromAmount, normalizePercent]⟩)

/-- Helper: Python's `if dd > seen: seen = dd` update is a `max`. -/
lemma ite_lt_eq_max (a b : ℚ) : (if a < b then b else a) = max a b := by
  split_ifs with h
  · exact (max_eq_right h.le).symm
  · exact (max_eq_left (not_lt.mp h)).symm

/-- Helper: one rule-scan step either keeps the accumulator (rule skipped
or not qualifying) or raises it to `max acc` of the qualifying rule's
normalized stop level. -/
lemma levelStep_eq (p acc : ℚ) (r : PyVal × PyVal) :
    levelStep p acc r = acc ∨
    ∃ t s, toFloatOpt r.1 = some t ∧ toFloatOpt r.2 = some s ∧
      normalizePercent (PyVal.num t) ≤ p ∧
      levelStep p acc r = max acc (normalizePercent (PyVal.num s)) := by
  unfold levelStep
  rcases ha : toFloatOpt r.1 with _ | t
  · exact Or.inl rfl
  rcases hb : toFloatOpt r.2 with _ | s
  · exact Or.inl rfl
  by_cases htrig : normalizePercent (PyVal.num t) ≤ p
  · exact Or.inr ⟨t, s, rfl, rfl, htrig, if_pos htrig⟩
  · exact Or.inl (if_neg htrig)

/-- Helper: a qualifying rule makes the step take the max with its
normalized stop level. -/
lemma levelStep_qualifies (p acc : ℚ) (r : PyVal × PyVal) (t s : ℚ)
    (ht : toFloatOpt r.1 = some t) (hs : toFloatOpt r.2 = some s)
    (htrig : normalizePercent (PyVal.num t) ≤ p) :
    levelStep p acc r = max acc (normalizePercent (PyVal.num s)) := by
  unfold levelStep
  rw [ht, hs]
  exact if_pos htrig

/-- Helper: the rule-scan step never decreases the accumulator. -/
lemma le_levelStep (p acc : ℚ) (r : PyVal × PyVal) : acc ≤ levelStep p acc r := by
  rcases levelStep_eq p acc r with h | ⟨t, s, _, _, _, h⟩
  · exact h.ge
  · exact h ▸ le_max_left _ _

/-- Helper: the rule-scan fold dominates its accumulator, bounds the
normalized stop level of every qualifying rule, and is either the
accumulator or the normalized stop level of some qualifying rule. -/
lemma levelFold_spec (p : ℚ) (rules : List (PyVal × PyVal)) (acc : ℚ) :
    acc ≤ rules.foldl (levelStep p) acc ∧
    (∀ r ∈ rules, ∀ t s, toFloatOpt r.1 = some t → toFloatOpt r.2 = some s →
      normalizePercent (PyVal.num t) ≤ p →
      normalizePercent (PyVal.num s) ≤ rules.foldl (levelStep p) acc) ∧
    (rules.foldl (levelStep p) acc = acc ∨
      ∃ r ∈ rules, ∃ t s, toFloatOpt r.1 = some t ∧ toFloatOpt r.2 = some s ∧
        normalizePercent (PyVal.num t) ≤ p ∧
        rules.foldl (levelStep p) acc = normalizePercent (PyVal.num s)) := by
  induction rules generalizing acc with
  | nil => exact ⟨le_refl _, by simp, Or.inl rfl⟩
  | cons r rest ih =>
    have hcons : (r :: rest).foldl (levelStep p) acc =
        rest.foldl (levelStep p) (levelStep p acc r) := List.foldl_cons _ _
    rcases ih (levelStep p acc r) with ⟨hle, hbound, hattain⟩
    refine ⟨hcons ▸ le_trans (le_levelStep p acc r) hle, ?_, ?_⟩
    · intro r' hr' t s ht hs htrig
      rcases List.mem_cons.mp hr' with rfl | hmem
      · rw [hcons]
        refine le_trans ?_ hle
        rw [levelStep_qualifies p acc r' t s ht hs htrig]
        exact le_max_right _ _
      · rw [hcons]
        exact hbound r' hmem t s ht hs htrig
    · rw [hcons]
      rcases hattain with heq | ⟨r', hr', t, s, ht, hs, htrig, hval⟩
      · rcases levelStep_eq p acc r with hstep | ⟨t, s, ht, hs, htrig, hstep⟩
        · exact Or.inl (by rw [heq, hstep])
        · rcases max_choice acc (normalizePercent (PyVal.num s)) with hmax | hmax
          · exact Or.inl (by rw [heq, hstep, hmax])
          · exact Or.inr ⟨r, List.mem_cons_self _ _, t, s, ht, hs, htrig,
              by rw [heq, hstep, hmax]⟩
      · exact Or.inr ⟨r', List.mem_cons_of_mem _ hr', t, s, ht, hs, htrig, hval⟩

/-- Helper: `_update_trailing_state` written as an explicit record, with
the drawdown `if`-updates rewritten as `max` and the trailing level
recomputed against the *updated* max-profit-seen %. -/
lemma updateTrailingState_eq (config : TrailingConfig) (st : TrailingState)
    (latestPnl notional : ℚ) :
    updateTrailingState config st latestPnl notional =
      { max_profit_seen := max st.max_profit_seen latestPnl,
        max_profit_seen_pct := max st.max_profit_seen_pct (percentFromAmount latestPnl notional),
        max_drawdown_seen := max st.max_drawdown_seen (max 0 (-latestPnl)),
        max_drawdown_seen_pct :=
          max st.max_drawdown_seen_pct (max 0 (-percentFromAmount latestPnl notional)),
        trailing_level :=
          if config.trailing_sl_enabled then
            applicableLevel config.trailing_rules
              (max st.max_profit_seen_pct (percentFromAmount latestPnl notional))
          else st.trailing_level } := by
  rcases hb : config.trailing_sl_enabled with _ | _ <;>
    simp only [updateTrailingState, hb, ite_lt_eq_max, Bool.false_eq_true, if_false, if_true]

/-- C2: each monitoring cycle, `_update_trailing_state` sets
max-profit-seen (absolute and %) to the max of the previous value and the
latest P&L (absolute resp. %), max-drawdown-seen (absolute and %) to the
max of the previous value and `max 0 (−latest)`, and then: when trailing
is disabled the trailing level is untouched; when enabled the level is
recomputed over the rules against the *updated* max-profit-seen % — it
bounds every qualifying rule's stop level, and is 0 or attained by a
qualifying rule.  With rules `{10%: 2%, 20%: 8%}`, a max-profit-seen % of
15 yields level 2 and 25 yields level 8. -/
theorem updateTrailingState_spec :
    (∀ (config : TrailingConfig) (st : TrailingState) (latestPnl notional : ℚ),
      (updateTrailingState config st latestPnl notional).max_profit_seen =
        max st.max_profit_seen latestPnl ∧
      (updateTrailingState config st latestPnl notional).max_profit_seen_pct =
        max st.max_profit_seen_pct (percentFromAmount latestPnl notional) ∧
      (updateTrailingState config st latestPnl notional).max_drawdown_seen =
        max st.max_drawdown_seen (max 0 (-latestPnl)) ∧
      (updateTrailingState config st latestPnl notional).max_drawdown_seen_pct =
        max st.max_drawdown_seen_pct (max 0 (-percentFromAmount latestPnl notional)) ∧
      (config.trailing_sl_enabled = false →
        (updateTrailingState config st latestPnl notional).trailing_level =
          st.trailing_level) ∧
      (config.trailing_sl_enabled = true →
        (updateTrailingState config st latestPnl notional).trailing_level =
          applicableLevel config.trailing_rules
            (max st.max_profit_seen_pct (percentFromAmount latestPnl notional)) ∧
        (∀ r ∈ config.trailing_rules, ∀ t s,
          toFloatOpt r.1 = some t → toFloatOpt r.2 = some s →
          normalizePercent (PyVal.num t) ≤
            max st.max_profit_seen_pct (percentFromAmount latestPnl notional) →
          normalizePercent (PyVal.num s) ≤
            (updateTrailingState config st latestPnl notional).trailing_level) ∧
        ((updateTrailingState config st latestPnl notional).trailing_level = 0 ∨
          ∃ r ∈ config.trailing_rules, ∃ t s,
            toFloatOpt r.1 = some t ∧ toFloatOpt r.2 = some s ∧
            normalizePercent (PyVal.num t) ≤
              max st.max_profit_seen_pct (percentFromAmount latestPnl notional) ∧
            (updateTrailingState config st latestPnl notional).trailing_level =
              normalizePercent (PyVal.num s)))) ∧
    applicableLevel [(PyVal.num 10, PyVal.num 2), (PyVal.num 20, PyVal.num 8)] 15 = 2 ∧
    applicableLevel [(PyVal.num 10, PyVal.num 2), (PyVal.num 20, PyVal.num 8)] 25 = 8 := by
  refine ⟨?_, ?_, ?_⟩
  · intro config st latestPnl notional
    rcases hb : config.trailing_sl_enabled with _ | _
    · rw [updateTrailingState_eq config st latestPnl notional, hb]
      refine ⟨rfl, rfl, rfl, rfl, fun _ => by simp, fun h => by simp at h⟩
    · rw [updateTrailingState_eq config st latestPnl notional, hb]
      refine ⟨rfl, rfl, rfl, rfl, fun h => by simp at h, fun _ => ?_⟩
      rcases levelFold_spec
          (max st.max_profit_seen_pct (percentFromAmount latestPnl notional))
          config.trailing_rules 0 with ⟨-, hbound, hattain⟩
      exact ⟨by simp, fun r hr t s ht hs htrig => by
          simpa using hbound r hr t s ht hs htrig,
        by simpa using hattain⟩
  · norm_num [applicableLevel, levelStep, toFloatOpt, normalizePercent, max_def]
  · norm_num [applicableLevel, levelStep, toFloatOpt, normalizePercent, max_def]

/-- Witness for C2: updating from a state whose max-profit-seen % is 15
with rules `{10: 2, 20: 8}` (trailing enabled) gives trailing level 2
bounding the one qualifying rule. -/
theorem updateTrailingState_spec_witness :
    (updateTrailingState ⟨true, [(PyVal.num 10, PyVal.num 2), (PyVal.num 20, PyVal.num 8)]⟩
        ⟨0, 15, 0, 0, 0⟩ 0 0).trailing_level =
      applicableLevel [(PyVal.num 10, PyVal.num 2), (PyVal.num 20, PyVal.num 8)]
        (max 15 (percentFromAmount 0 0)) :=
  ((updateTrailingState_spec.1 ⟨true, [(PyVal.num 10, PyVal.num 2), (PyVal.num 20, PyVal.num 8)]⟩
      ⟨0, 15, 0, 0, 0⟩ 0 0).2.2.2.2.2 rfl).1

/-- C3: realized P&L of a closed short is
`(entry − exit) × quantity × contract_size`, of a closed long
`(exit − entry) × quantity × contract_size`, and unrealized P&L uses the
same formulas with the mark price in place of the exit price; a short
with entry 100 / exit 90 / quantity 1 / contract size 1 realizes exactly
10, as does a long with entry 90 / exit 100. -/
theorem pnl_formulas :
    (∀ (cs : ℚ) (pos : PositionLedger) (exitPrice markPrice q : ℚ),
      toFloatOpt pos.quantity = some q →
      (pyLower pos.side = "short" →
        calculateRealizedPnl cs pos exitPrice = (pos.entry_price - exitPrice) * q * cs ∧
        calculateUnrealized pos markPrice cs = (pos.entry_price - markPrice) * q * cs) ∧
      (pyLower pos.side = "long" →
        calculateRealizedPnl cs pos exitPrice = (exitPrice - pos.entry_price) * q * cs ∧
        calculateUnrealized pos markPrice cs = (markPrice - pos.entry_price) * q * cs)) ∧
    calculateRealizedPnl 1 ⟨"short", 100, PyVal.num 1⟩ 90 = 10 ∧
    calculateRealizedPnl 1 ⟨"long", 90, PyVal.num 1⟩ 100 = 10 := by
  refine ⟨?_, ?_, ?_⟩
  · intro cs pos exitPrice markPrice q hq
    have hq' : toFloatD pos.quantity 0 = q := by
      rcases hqv : pos.quantity with _ | v | _
      · rw [hqv] at hq
        exact Option.noConfusion hq
      · rw [hqv] at hq
        simp [toFloatD, Option.some.inj hq]
      · rw [hqv] at hq
        exact Option.noConfusion hq
    constructor
    · intro hside
      unfold calculateRealizedPnl calculateUnrealized
      rw [if_pos hside, if_pos hside, hq']
      exact ⟨rfl, rfl⟩
    · intro hside
      have hne : ¬ pyLower pos.side = "short" := by
        rw [hside]
        decide
      unfold calculateRealizedPnl calculateUnrealized
      rw [if_neg hne, if_pos hside, if_neg hne, if_pos hside, hq']
      exact ⟨rfl, rfl⟩
  · unfold calculateRealizedPnl
    rw [if_pos (by decide : pyLower "short" = "short")]
    norm_num [toFloatD]
  · unfold calculateRealizedPnl
    rw [if_neg (by decide : ¬ pyLower "long" = "short"),
      if_pos (by decide : pyLower "long" = "long")]
    norm_num [toFloatD]

/-- Witness for C3: the short example, via the general formula. -/
theorem pnl_formulas_witness :
    calculateRealizedPnl 1 ⟨"short", 100, PyVal.num 1⟩ 90 = (100 - 90) * 1 * 1 :=
  ((pnl_formulas.1 1 ⟨"short", 100, PyVal.num 1⟩ 90 0 1 rfl).1 (by decide)).1

/-- C10: `_normalize_percent` maps a numeric value strictly between 0 and
1 to `value × 100`, maps `None` and non-numeric values to 0, and returns
every other numeric value unchanged; the exit-condition thresholds and
the trailing-rule trigger/stop percentages all pass through it, so a
configured `max_loss_pct` of 0.5 behaves as 50% (not 0.5%) in exit
evaluation and a trailing rule `{0.1: 0.02}` behaves as trigger 10% /
stop 2%. -/
theorem normalizePercent_scaling :
    (∀ q : ℚ, 0 < q → q < 1 → normalizePercent (PyVal.num q) = q * 100) ∧
    normalizePercent PyVal.null = 0 ∧
    normalizePercent PyVal.nonnum = 0 ∧
    (∀ q : ℚ, ¬ (0 < q ∧ q < 1) → normalizePercent (PyVal.num q) = q) ∧
    exitTrigger ⟨PyVal.num (1/2), PyVal.null, false⟩ 0 (-50) 100 =
      some ExitReason.max_loss ∧
    exitTrigger ⟨PyVal.num (1/2), PyVal.null, false⟩ 0 (-1/2) 100 = none ∧
    applicableLevel [(PyVal.num (1/10), PyVal.num (1/50))] 15 = 2 ∧
    applicableLevel [(PyVal.num (1/10), PyVal.num (1/50))] 5 = 0 := by
  refine ⟨?_, rfl, rfl, ?_, ?_, ?_, ?_, ?_⟩
  · intro q h0 h1
    unfold normalizePercent
    exact if_pos ⟨h0, h1⟩
  · intro q h
    unfold normalizePercent
    exact if_neg h
  · unfold exitTrigger
    norm_num [normalizePercent, percentFromAmount]
  · unfold exitTrigger
    norm_num [normalizePercent, percentFromAmount]
  · norm_num [applicableLevel, levelStep, toFloatOpt, normalizePercent, max_def]
  · norm_num [applicableLevel, levelStep, toFloatOpt, normalizePercent, max_def]

/-- Witness for C10: `0.5` is normalized to `50`. -/
theorem normalizePercent_scaling_witness :
    normalizePercent (PyVal.num (1/2)) = (1/2) * 100 :=
  normalizePercent_scaling.1 (1/2) (by norm_num) (by norm_num)

/-- C6 counterexample: with a script whose first monitoring cycle raises
an unexpected exception, `_run_loop` executes exactly that one iteration
and ends via the exception handler — the following cycle never runs, so
the loop does *not* continue with the next cycle as the claim states. -/
theorem runLoop_exception_counterexample :
    runLoop false [CycleOutcome.raiseExc, CycleOutcome.ok false] = (LoopEnd.loopFailed, 1) ∧
    (runLoop false [CycleOutcome.raiseExc, CycleOutcome.ok false]).2 ≠ 2 := by
  exact ⟨rfl, by decide⟩

/-- C6 (amended): an unexpected exception raised inside an iteration of
the control loop is logged by the `except Exception` handler sitting
*outside* the `while` and terminates the loop after exactly that
iteration (cleanup then runs); cancellation likewise ends the loop; an
iteration that completes normally lets the loop continue, and a set stop
event ends the loop at its top without running further iterations. -/
theorem runLoop_exception_terminates :
    (∀ rest, runLoop false (CycleOutcome.raiseExc :: rest) = (LoopEnd.loopFailed, 1)) ∧
    (∀ rest, runLoop false (CycleOutcome.cancelled :: rest) = (LoopEnd.loopCancelled, 1)) ∧
    (∀ rest, runLoop false (CycleOutcome.ok false :: rest) =
      ((runLoop false rest).1, (runLoop false rest).2 + 1)) ∧
    (∀ rest, runLoop true rest = (LoopEnd.stopRequested, 0)) :=
  ⟨fun _ => rfl, fun _ => rfl, fun _ => rfl, fun rest => by
    cases rest with
    | nil => rfl
    | cons c cs => cases c <;> rfl⟩

/-- C8 counterexample: at 12:00 IST (390 minutes past UTC midnight) with
a configured entry time-of-day of 09:00 IST (540 minutes), the scheduled
entry computed by `_compute_scheduled_entry` lies in the past — the
claim that it is never earlier than the moment `start()` runs fails. -/
theorem computeScheduledEntry_counterexample :
    computeScheduledEntry 390 540 < 390 := by decide

/-- C8 (amended): the scheduled entry timestamp is the configured
time-of-day on the *current* IST day (IST day-start plus time-of-day,
converted back to UTC); it is at/after the moment `start()` runs exactly
when the time-of-day has not yet passed in IST, and is earlier
otherwise — unlike `_compute_exit_time`, which rolls past times to the
next day and therefore never returns an instant at or before now. -/
theorem computeScheduledEntry_today :
    (∀ nowUtc tod : ℤ, 0 ≤ tod → tod < 1440 →
      computeScheduledEntry nowUtc tod =
        (nowUtc + istOffsetMinutes) - (nowUtc + istOffsetMinutes) % minutesPerDay
          + tod - istOffsetMinutes ∧
      (nowUtc ≤ computeScheduledEntry nowUtc tod ↔
        (nowUtc + istOffsetMinutes) % minutesPerDay ≤ tod)) ∧
    (∀ nowUtc tod : ℤ, 0 ≤ tod → tod < 1440 → nowUtc < computeExitTime nowUtc tod) := by
  constructor
  · intro nowUtc tod h0 h1
    refine ⟨rfl, ?_⟩
    unfold computeScheduledEntry istOffsetMinutes minutesPerDay
    omega
  · intro nowUtc tod h0 h1
    simp only [computeExitTime, istOffsetMinutes, minutesPerDay]
    split_ifs with h <;> omega

/-- Witness for C8 (amended) at the counterexample's input: the
scheduled entry is not at/after now because 09:00 IST is already past at
12:00 IST, while the exit-time computation does land in the future. -/
theorem computeScheduledEntry_today_witness :
    ((390 : ℤ) ≤ computeScheduledEntry 390 540 ↔
      ((390 : ℤ) + istOffsetMinutes) % minutesPerDay ≤ 540) ∧
    (390 : ℤ) < computeExitTime 390 540 :=
  ⟨(computeScheduledEntry_today.1 390 540 (by decide) (by decide)).2,
    computeScheduledEntry_today.2 390 540 (by decide) (by decide)⟩

/-- Helper: every key of the cache after an upsert is the new key or one
of the old keys. -/
lemma mem_upsertQuote_keys (s x : String) (q : Quote) (c : List (String × Quote))
    (hx : x ∈ (upsertQuote s q c).map Prod.fst) : x = s ∨ x ∈ c.map Prod.fst := by
  induction c with
  | nil => simpa [upsertQuote] using hx
  | cons kv rest ih =>
    rcases kv with ⟨k, v⟩
    by_cases hk : k = s
    · rw [upsertQuote, if_pos hk] at hx
      simp only [List.map_cons, List.mem_cons] at hx ⊢
      tauto
    · rw [upsertQuote, if_neg hk] at hx
      simp only [List.map_cons, List.mem_cons] at hx ⊢
      rcases hx with rfl | hx
      · tauto
      · rcases ih hx with h | h <;> tauto

/-- Helper: an upsert keeps the cache keys free of duplicates, i.e. at
most one entry per symbol. -/
lemma upsertQuote_nodup (s : String) (q : Quote) (c : List (String × Quote))
    (h : (c.map Prod.fst).Nodup) : ((upsertQuote s q c).map Prod.fst).Nodup := by
  induction c with
  | nil => simp [upsertQuote]
  | cons kv rest ih =>
    rcases kv with ⟨k, v⟩
    rw [List.map_cons, List.nodup_cons] at h
    by_cases hk : k = s
    · rw [upsertQuote, if_pos hk, List.map_cons, List.nodup_cons]
      exact ⟨hk ▸ h.1, h.2⟩
    · rw [upsertQuote, if_neg hk, List.map_cons, List.nodup_cons]
      refine ⟨fun hcontra => ?_, ih h.2⟩
      rcases mem_upsertQuote_keys s k q rest hcontra with rfl | hmem
      · exact hk rfl
      · exact h.1 hmem

/-- Helper: after an upsert, looking the key up returns exactly the new
value, whatever was cached before. -/
lemma upsertQuote_lookup (s : String) (q : Quote) (c : List (String × Quote)) :
    (upsertQuote s q c).lookup s = some q := by
  induction c with
  | nil => simp [upsertQuote, List.lookup]
  | cons kv rest ih =>
    rcases kv with ⟨k, v⟩
    by_cases hk : k = s
    · rw [upsertQuote, if_pos hk]
      simp [List.lookup]
    · rw [upsertQuote, if_neg hk]
      have hbeq : (s == k) = false := beq_eq_false_iff_ne.mpr fun h => hk h.symm
      simp [List.lookup, hbeq, ih]

/-- C9: an accepted quote update replaces the cache entry for its symbol
with a record built from the new message alone — fields the message does
not carry are stored as `none`, never backfilled from the old cached
quote — and the cache keeps at most one quote per symbol.  Concretely,
storing a message for `X` with no bid/ask/mark values over an old `X`
quote that had them yields a cached quote whose fields are all `none`. -/
theorem storeQuote_replaces_wholesale :
    (∀ (cache : List (String × Quote)) (data : TickerMessage),
      ((cache.map Prod.fst).Nodup → ((storeQuote cache data).map Prod.fst).Nodup) ∧
      (normalizeSymbol (strOr data.symbol (strOr data.product_symbol data.market)) ≠ "" →
        (storeQuote cache data).lookup
            (normalizeSymbol (strOr data.symbol (strOr data.product_symbol data.market))) =
          some (buildQuote
            (normalizeSymbol (strOr data.symbol (strOr data.product_symbol data.market)))
            data))) ∧
    (storeQuote [("X", ⟨"X", some 1, some 2, some 5, some 6, some 7, some 8⟩)]
        ⟨some "X", none, none, PyVal.null, PyVal.null, PyVal.null, PyVal.null, PyVal.null,
          PyVal.null, PyVal.null, PyVal.null, PyVal.null, PyVal.null, none⟩).lookup "X" =
      some ⟨"X", none, none, none, none, none, none⟩ := by
  constructor
  · intro cache data
    constructor
    · intro hnodup
      simp only [storeQuote]
      split_ifs with hs
      · exact hnodup
      · exact upsertQuote_nodup _ _ _ hnodup
    · intro hs
      simp only [storeQuote]
      rw [if_neg hs]
      exact upsertQuote_lookup _ _ _
  · decide

/-- Witness for C9: the general statement applied to the concrete
one-entry cache and the field-less message for symbol `X`. -/
theorem storeQuote_replaces_wholesale_witness :
    (storeQuote [("X", ⟨"X", some 1, some 2, some 5, some 6, some 7, some 8⟩)]
        ⟨some "X", none, none, PyVal.null, PyVal.null, PyVal.null, PyVal.null, PyVal.null,
          PyVal.null, PyVal.null, PyVal.null, PyVal.null, PyVal.null, none⟩).lookup
      (normalizeSymbol (strOr (some "X") (strOr none none))) =
      some (buildQuote (normalizeSymbol (strOr (some "X") (strOr none none)))
        ⟨some "X", none, none, PyVal.null, PyVal.null, PyVal.null, PyVal.null, PyVal.null,
          PyVal.null, PyVal.null, PyVal.null, PyVal.null, PyVal.null, none⟩) :=
  (storeQuote_replaces_wholesale.1
      [("X", ⟨"X", some 1, some 2, some 5, some 6, some 7, some 8⟩)]
      ⟨some "X", none, none, PyVal.null, PyVal.null, PyVal.null, PyVal.null, PyVal.null,
        PyVal.null, PyVal.null, PyVal.null, PyVal.null, PyVal.null, none⟩).2
    (by decide)

/-- C4 counterexample: with the partial-fill threshold at 10%, an
attempt that fills 50% (fraction 1/2, at/above the threshold and below
100%) does *not* end the strategy: a second limit order is submitted for
the remaining 5 (the audit list gets a second entry) and the outcome
reports the combined fill of both attempts, not the first attempt
alone. -/
theorem orderStrategy_partial_fill_counterexample :
    executeOrderStrategy (1/10) 10
        [⟨true, [some ⟨PyVal.num 10, PyVal.num 5, OrderState.other⟩]⟩,
         ⟨true, [some ⟨PyVal.num 5, PyVal.num 0, OrderState.other⟩]⟩]
        ⟨false, []⟩ =
      ⟨true, ExecMode.limit_orders, 10,
        [AttemptRecord.limit 10 (1/2) 5, AttemptRecord.limit 5 1 5]⟩ ∧
    (1/10 : ℚ) ≤ 1/2 ∧ (1/2 : ℚ) < 1 := by
  refine ⟨?_, by norm_num, by norm_num⟩
  norm_num +decide [executeOrderStrategy, execLimitAttempts, waitForFill, timeoutResult,
    fillFracOf, filledAmount, sizeValue, toFloatD, pyOr, pyTruthy, epsFill]

/-- C4 (amended): a limit attempt whose wait completes — which includes
a partial fill at or above the threshold but below 100% — has its filled
amount added to the total and deducted from the remaining quantity, and
the strategy *continues* with the next limit attempt for the remainder
whenever more than `1e-8` is left; only when the remainder is within
`1e-8` does the attempt loop stop early. -/
theorem execOrderStrategy_partial_fill_continues :
    (∀ (minFillFrac : ℚ) (s : AttemptScript) (rest : List AttemptScript)
        (remaining totalFilled : ℚ) (recs : List AttemptRecord),
      s.submitOk = true →
      (waitForFill remaining minFillFrac s.polls none).completed = true →
      epsFill < max 0 (remaining - (waitForFill remaining minFillFrac s.polls none).filled) →
      execLimitAttempts minFillFrac (s :: rest) remaining totalFilled recs =
        execLimitAttempts minFillFrac rest
          (max 0 (remaining - (waitForFill remaining minFillFrac s.polls none).filled))
          (totalFilled + (waitForFill remaining minFillFrac s.polls none).filled)
          (recs ++ [AttemptRecord.limit remaining
            (waitForFill remaining minFillFrac s.polls none).fillFrac
            (waitForFill remaining minFillFrac s.polls none).filled])) ∧
    (∀ (minFillFrac : ℚ) (s : AttemptScript) (rest : List AttemptScript)
        (remaining totalFilled : ℚ) (recs : List AttemptRecord),
      s.submitOk = true →
      (waitForFill remaining minFillFrac s.polls none).completed = true →
      max 0 (remaining - (waitForFill remaining minFillFrac s.polls none).filled) ≤ epsFill →
      execLimitAttempts minFillFrac (s :: rest) remaining totalFilled recs =
        (max 0 (remaining - (waitForFill remaining minFillFrac s.polls none).filled),
         totalFilled + (waitForFill remaining minFillFrac s.polls none).filled,
         recs ++ [AttemptRecord.limit remaining
           (waitForFill remaining minFillFrac s.polls none).fillFrac
           (waitForFill remaining minFillFrac s.polls none).filled])) := by
  constructor
  · intro minFillFrac s rest remaining totalFilled recs hsub hcomp hrem
    simp only [execLimitAttempts, hsub, Bool.true_eq_false, if_false, hcomp, if_true]
    rw [if_neg (not_le.mpr hrem)]
  · intro minFillFrac s rest remaining totalFilled recs hsub hcomp hrem
    simp only [execLimitAttempts, hsub, Bool.true_eq_false, if_false, hcomp, if_true]
    rw [if_pos hrem]

/-- Witness for C4 (amended): the 50%-fill attempt of the counterexample
input makes the loop continue with the second attempt script. -/
theorem execOrderStrategy_partial_fill_continues_witness :
    execLimitAttempts (1/10)
        [⟨true, [some ⟨PyVal.num 10, PyVal.num 5, OrderState.other⟩]⟩,
         ⟨true, [some ⟨PyVal.num 5, PyVal.num 0, OrderState.other⟩]⟩] 10 0 [] =
      execLimitAttempts (1/10) [⟨true, [some ⟨PyVal.num 5, PyVal.num 0, OrderState.other⟩]⟩]
        (max 0 (10 - (waitForFill 10 (1/10)
          [some ⟨PyVal.num 10, PyVal.num 5, OrderState.other⟩] none).filled))
        (0 + (waitForFill 10 (1/10)
          [some ⟨PyVal.num 10, PyVal.num 5, OrderState.other⟩] none).filled)
        ([] ++ [AttemptRecord.limit 10
          (waitForFill 10 (1/10)
            [some ⟨PyVal.num 10, PyVal.num 5, OrderState.other⟩] none).fillFrac
          (waitForFill 10 (1/10)
            [some ⟨PyVal.num 10, PyVal.num 5, OrderState.other⟩] none).filled]) :=
  execOrderStrategy_partial_fill_continues.1 (1/10)
    ⟨true, [some ⟨PyVal.num 10, PyVal.num 5, OrderState.other⟩]⟩
    [⟨true, [some ⟨PyVal.num 5, PyVal.num 0, OrderState.other⟩]⟩] 10 0 [] rfl
    (by norm_num +decide [waitForFill, timeoutResult, fillFracOf, filledAmount, sizeValue,
      toFloatD, pyOr, pyTruthy])
    (by norm_num +decide [waitForFill, timeoutResult, fillFracOf, filledAmount, sizeValue,
      toFloatD, pyOr, pyTruthy, epsFill])

/-- C5 counterexample: a market leg whose wait completes trivially (the
first poll shows an open order with 0% filled, and the market wait runs
with minimum fraction 0, so `0 ≥ 0` reports completion) while nothing
filled on any leg yields an overall *failure* — so "successful exactly
when the market leg completes" does not hold as stated. -/
theorem orderStrategy_market_completed_counterexample :
    (waitForFill 10 0 [some ⟨PyVal.num 10, PyVal.num 10, OrderState.other⟩] none).completed
      = true ∧
    (executeOrderStrategy (1/10) 10
        [⟨true, [some ⟨PyVal.num 10, PyVal.num 10, OrderState.other⟩]⟩]
        ⟨true, [some ⟨PyVal.num 10, PyVal.num 10, OrderState.other⟩]⟩).success = false := by
  constructor
  · norm_num +decide [waitForFill, timeoutResult, fillFracOf, filledAmount, sizeValue,
      toFloatD, pyOr, pyTruthy]
  · norm_num +decide [executeOrderStrategy, execLimitAttempts, waitForFill, timeoutResult,
      fillFracOf, filledAmount, sizeValue, toFloatD, pyOr, pyTruthy, epsFill]

/-- C5 (amended): when the strategy reaches the market fallback
(remaining > 1e-8 after the limit attempts, market submission accepted),
the outcome is successful exactly when the market wait completes *and*
the total filled across all legs is positive; the outcome always carries
the total quantity actually filled across all legs, and a success is
reported as `market_fallback` mode.  In particular, when every limit
attempt times out at 0% and the market order fills 100%, the outcome is
a `market_fallback` success whose fill equals the requested quantity. -/
theorem orderStrategy_market_fallback_outcome :
    (∀ (minFillFrac quantity : ℚ) (limitScripts : List AttemptScript)
        (marketScript : MarketScript) (remaining totalFilled : ℚ)
        (recs : List AttemptRecord),
      execLimitAttempts minFillFrac limitScripts quantity 0 [] =
        (remaining, totalFilled, recs) →
      ¬ remaining ≤ epsFill →
      marketScript.submitOk = true →
      ((executeOrderStrategy minFillFrac quantity limitScripts marketScript).success = true ↔
        ((waitForFill remaining 0 marketScript.polls none).completed = true ∧
          0 < totalFilled + (waitForFill remaining 0 marketScript.polls none).filled)) ∧
      (executeOrderStrategy minFillFrac quantity limitScripts marketScript).filled_size =
        totalFilled + (waitForFill remaining 0 marketScript.polls none).filled ∧
      ((executeOrderStrategy minFillFrac quantity limitScripts marketScript).success = true →
        (executeOrderStrategy minFillFrac quantity limitScripts marketScript).mode =
          ExecMode.market_fallback)) ∧
    executeOrderStrategy (1/10) 10
        [⟨true, [some ⟨PyVal.num 10, PyVal.num 10, OrderState.other⟩]⟩]
        ⟨true, [some ⟨PyVal.num 10, PyVal.num 0, OrderState.other⟩]⟩ =
      ⟨true, ExecMode.market_fallback, 10,
        [AttemptRecord.limit 10 0 0, AttemptRecord.market 10 1 10]⟩ := by
  constructor
  · intro minFillFrac quantity limitScripts marketScript remaining totalFilled recs
      hexec hrem hmkt
    have hun : executeOrderStrategy minFillFrac quantity limitScripts marketScript =
        (if (waitForFill remaining 0 marketScript.polls none).completed ∧
            0 < totalFilled + (waitForFill remaining 0 marketScript.polls none).filled then
          ⟨true, ExecMode.market_fallback,
            totalFilled + (waitForFill remaining 0 marketScript.polls none).filled,
            recs ++ [AttemptRecord.market remaining
              (waitForFill remaining 0 marketScript.polls none).fillFrac
              (waitForFill remaining 0 marketScript.polls none).filled]⟩
        else
          ⟨false, ExecMode.failed,
            totalFilled + (waitForFill remaining 0 marketScript.polls none).filled,
            recs ++ [AttemptRecord.market remaining
              (waitForFill remaining 0 marketScript.polls none).fillFrac
              (waitForFill remaining 0 marketScript.polls none).filled]⟩) := by
      simp only [executeOrderStrategy, hexec, hmkt, Bool.true_eq_false, if_false]
      rw [if_neg hrem]
    rw [hun]
    split_ifs with h
    · exact ⟨⟨fun _ => h, fun _ => rfl⟩, rfl, fun _ => rfl⟩
    · refine ⟨⟨fun hfalse => absurd hfalse (by simp), fun hc => absurd hc h⟩, rfl,
        fun hfalse => absurd hfalse (by simp)⟩
  · norm_num +decide [executeOrderStrategy, execLimitAttempts, waitForFill, timeoutResult,
      fillFracOf, filledAmount, sizeValue, toFloatD, pyOr, pyTruthy, epsFill]

/-- Witness for C5 (amended): on the all-limit-attempts-time-out input,
the outcome's fill equals the limit legs' total (zero) plus the market
leg's fill. -/
theorem orderStrategy_market_fallback_outcome_witness :
    (executeOrderStrategy (1/10) 10
        [⟨true, [some ⟨PyVal.num 10, PyVal.num 10, OrderState.other⟩]⟩]
        ⟨true, [some ⟨PyVal.num 10, PyVal.num 0, OrderState.other⟩]⟩).filled_size =
      0 + (waitForFill 10 0 [some ⟨PyVal.num 10, PyVal.num 0, OrderState.other⟩] none).filled :=
  (orderStrategy_market_fallback_outcome.1 (1/10) 10
      [⟨true, [some ⟨PyVal.num 10, PyVal.num 10, OrderState.other⟩]⟩]
      ⟨true, [some ⟨PyVal.num 10, PyVal.num 0, OrderState.other⟩]⟩ 10 0
      [AttemptRecord.limit 10 0 0]
      (by norm_num +decide [execLimitAttempts, waitForFill, timeoutResult, fillFracOf,
        filledAmount, sizeValue, toFloatD, pyOr, pyTruthy, epsFill])
      (by norm_num [epsFill]) rfl).2.1

set_option maxHeartbeats 1600000

/-- Helper: `goodAgainst` is reflexive. -/
lemma goodAgainst_refl (target : ℚ) (c : OptionContract) : goodAgainst target c c :=
  ⟨le_refl _, fun _ => le_refl _⟩

/-- Helper: `goodAgainst` is transitive. -/
lemma goodAgainst_trans {target : ℚ} {a b c : OptionContract}
    (hab : goodAgainst target a b) (hbc : goodAgainst target b c) :
    goodAgainst target a c := by
  rcases hab with ⟨hba, hda⟩
  rcases hbc with ⟨hcb, hdb⟩
  refine ⟨le_trans hcb hba, fun heq => ?_⟩
  have h1 : c.delta = b.delta := by linarith
  have h2 : b.delta = a.delta := by linarith
  exact le_trans (hda h2) (hdb h1)

/-- Helper: one `pick_best` comparison keeps the best or takes the
challenger. -/
lemma pickStep_eq_or (target : ℚ) (c x : OptionContract) :
    pickStep target c x = x ∨ pickStep target c x = c := by
  unfold pickStep
  split_ifs
  · exact Or.inl rfl
  · exact Or.inr rfl

/-- Helper: the comparison result is at least as good as the old best. -/
lemma pickStep_good_left (target : ℚ) (c x : OptionContract) :
    goodAgainst target (pickStep target c x) c := by
  unfold pickStep
  split_ifs with h
  · rcases h with h | ⟨heq, hlt⟩
    · exact ⟨h.le, fun heq => absurd (heq ▸ h) (lt_irrefl _)⟩
    · exact ⟨heq.ge, fun _ => hlt.le⟩
  · exact goodAgainst_refl target c

/-- Helper: the comparison result is at least as good as the challenger. -/
lemma pickStep_good_right (target : ℚ) (c x : OptionContract) :
    goodAgainst target (pickStep target c x) x := by
  unfold pickStep
  split_ifs with h
  · exact goodAgainst_refl target x
  · push_neg at h
    exact ⟨h.1, fun heq => h.2 heq⟩

/-- Helper: the `pick_best` fold returns its initial element or a list
element, and the result is at least as good as the initial element and
every list element. -/
lemma pickFold_spec (target : ℚ) (rest : List OptionContract) (c : OptionContract) :
    (rest.foldl (pickStep target) c = c ∨ rest.foldl (pickStep target) c ∈ rest) ∧
    goodAgainst target (rest.foldl (pickStep target) c) c ∧
    (∀ x ∈ rest, goodAgainst target (rest.foldl (pickStep target) c) x) := by
  induction rest generalizing c with
  | nil => exact ⟨Or.inl rfl, goodAgainst_refl target c, by simp⟩
  | cons x rest ih =>
    rcases ih (pickStep target c x) with ⟨hmem, hinit, hbound⟩
    rw [List.foldl_cons]
    refine ⟨?_, ?_, ?_⟩
    · rcases hmem with heq | hmem
      · rcases pickStep_eq_or target c x with hx | hc
        · exact Or.inr (by rw [heq, hx]; exact List.mem_cons_self _ _)
        · exact Or.inl (by rw [heq, hc])
      · exact Or.inr (List.mem_cons_of_mem _ hmem)
    · exact goodAgainst_trans hinit (pickStep_good_left target c x)
    · intro y hy
      rcases List.mem_cons.mp hy with rfl | hmem'
      · exact goodAgainst_trans hinit (pickStep_good_right target c y)
      · exact hbound y hmem'

/-- Helper: `pick_best` returns a member of its candidate list that is at
least as good as every candidate. -/
lemma pickBest_spec (target : ℚ) (l : List OptionContract) (b : OptionContract)
    (h : pickBest target l = some b) :
    b ∈ l ∧ ∀ x ∈ l, goodAgainst target b x := by
  rcases l with _ | ⟨c, rest⟩
  · cases h
  · rcases pickFold_spec target rest c with ⟨hmem, hinit, hbound⟩
    have hb : rest.foldl (pickStep target) c = b := Option.some.inj h
    subst hb
    constructor
    · rcases hmem with heq | hmem
      · rw [heq]
        exact List.mem_cons_self c rest
      · exact List.mem_cons_of_mem _ hmem
    · intro x hx
      rcases List.mem_cons.mp hx with rfl | hmem'
      · exact hinit
      · exact hbound x hmem'

/-- Helper: every contract surviving the delta filter has its absolute
delta inside the configured range. -/
lemma mem_filteredContracts (delta_low delta_high : ℚ) (tickers : List Ticker)
    (c : OptionContract) (hc : c ∈ filteredContracts delta_low delta_high tickers) :
    delta_low ≤ c.delta ∧ c.delta ≤ delta_high := by
  unfold filteredContracts at hc
  rcases List.mem_filterMap.mp hc with ⟨t, -, ht⟩
  by_cases hcond : delta_low ≤ |t.delta| ∧ |t.delta| ≤ delta_high
  · rw [if_pos hcond] at ht
    cases Option.some.inj ht
    exact hcond
  · rw [if_neg hcond] at ht
    cases ht

/-- Helper: the call candidates are filtered contracts. -/
lemma callCandidates_subset (se : Option ℤ) (filtered : List OptionContract) :
    ∀ c ∈ callCandidates se filtered, c ∈ filtered := by
  intro c hc
  rcases se with _ | e
  · simp only [callCandidates] at hc
    split_ifs at hc <;> exact (List.mem_filter.mp hc).1
  · exact (List.mem_filter.mp hc).1

/-- Helper: the put candidates are filtered contracts. -/
lemma putCandidates_subset (se : Option ℤ) (filtered : List OptionContract) :
    ∀ c ∈ putCandidates se filtered, c ∈ filtered := by
  intro c hc
  rcases se with _ | e
  · simp only [putCandidates] at hc
    split_ifs at hc <;> exact (List.mem_filter.mp hc).1
  · exact (List.mem_filter.mp hc).1

/-- Helper: a successful selection comes from `pick_best` on the two
candidate lists. -/
lemma selectContracts_eq_some (delta_low delta_high : ℚ) (targetExpiry : Option ℤ)
    (minAllowedDate : ℤ) (tickers : List Ticker) (c p : OptionContract)
    (h : selectContracts delta_low delta_high targetExpiry minAllowedDate tickers =
      some (c, p)) :
    pickBest (targetDelta delta_low delta_high)
        (callCandidates
          (selectedExpiry targetExpiry minAllowedDate
            (filteredContracts delta_low delta_high tickers))
          (filteredContracts delta_low delta_high tickers)) = some c ∧
    pickBest (targetDelta delta_low delta_high)
        (putCandidates
          (selectedExpiry targetExpiry minAllowedDate
            (filteredContracts delta_low delta_high tickers))
          (filteredContracts delta_low delta_high tickers)) = some p := by
  simp only [selectContracts] at h
  by_cases hf : filteredContracts delta_low delta_high tickers = []
  · rw [if_pos hf] at h
    cases h
  · rw [if_neg hf] at h
    rcases h1 : pickBest (targetDelta delta_low delta_high)
        (callCandidates
          (selectedExpiry targetExpiry minAllowedDate
            (filteredContracts delta_low delta_high tickers))
          (filteredContracts delta_low delta_high tickers)) with _ | c'
    · rw [h1] at h
      cases h
    rcases h2 : pickBest (targetDelta delta_low delta_high)
        (putCandidates
          (selectedExpiry targetExpiry minAllowedDate
            (filteredContracts delta_low delta_high tickers))
          (filteredContracts delta_low delta_high tickers)) with _ | p'
    · rw [h1, h2] at h
      cases h
    rw [h1, h2] at h
    obtain ⟨hc, hp⟩ := Prod.mk.inj (Option.some.inj h)
    subst hc
    subst hp
    exact ⟨rfl, rfl⟩

/-- C7: every contract returned by `_select_contracts` has its absolute
delta within `[delta_low, delta_high]`; when the configured target
expiry has both a call and a put bucket, the returned call (resp. put)
is drawn from that expiry's bucket and beats every candidate there on
the key (absolute delta, then closeness to the range midpoint); and
between two same-expiry call candidates with deltas 0.19 and 0.12 in
range [0.10, 0.20], the 0.19 contract is picked. -/
theorem selectContracts_delta_range_and_best :
    (∀ (delta_low delta_high : ℚ) (targetExpiry : Option ℤ) (minAllowedDate : ℤ)
        (tickers : List Ticker) (c p : OptionContract),
      selectContracts delta_low delta_high targetExpiry minAllowedDate tickers =
        some (c, p) →
      (delta_low ≤ c.delta ∧ c.delta ≤ delta_high) ∧
      (delta_low ≤ p.delta ∧ p.delta ≤ delta_high)) ∧
    (∀ (delta_low delta_high : ℚ) (minAllowedDate e : ℤ)
        (tickers : List Ticker) (c p : OptionContract),
      ¬ callsAt e (filteredContracts delta_low delta_high tickers) = [] →
      ¬ putsAt e (filteredContracts delta_low delta_high tickers) = [] →
      selectContracts delta_low delta_high (some e) minAllowedDate tickers =
        some (c, p) →
      (c ∈ callsAt e (filteredContracts delta_low delta_high tickers) ∧
        ∀ x ∈ callsAt e (filteredContracts delta_low delta_high tickers),
          goodAgainst (targetDelta delta_low delta_high) c x) ∧
      (p ∈ putsAt e (filteredContracts delta_low delta_high tickers) ∧
        ∀ x ∈ putsAt e (filteredContracts delta_low delta_high tickers),
          goodAgainst (targetDelta delta_low delta_high) p x)) ∧
    selectContracts (1/10) (1/5) (some 0) 0
        [⟨"C19", 19/100, "call_options", some 0⟩,
         ⟨"C12", 12/100, "call_options", some 0⟩,
         ⟨"P15", 15/100, "put_options", some 0⟩] =
      some (⟨"C19", 19/100, "call_options", some 0⟩,
        ⟨"P15", 15/100, "put_options", some 0⟩) := by
  refine ⟨?_, ?_, ?_⟩
  · intro delta_low delta_high targetExpiry minAllowedDate tickers c p h
    rcases selectContracts_eq_some delta_low delta_high targetExpiry minAllowedDate
      tickers c p h with ⟨h1, h2⟩
    have hc := (pickBest_spec _ _ _ h1).1
    have hp := (pickBest_spec _ _ _ h2).1
    exact ⟨mem_filteredContracts _ _ _ _ (callCandidates_subset _ _ _ hc),
      mem_filteredContracts _ _ _ _ (putCandidates_subset _ _ _ hp)⟩
  · intro delta_low delta_high minAllowedDate e tickers c p hcne hpne h
    have hse : selectedExpiry (some e) minAllowedDate
        (filteredContracts delta_low delta_high tickers) = some e := by
      simp only [selectedExpiry]
      rw [if_pos ⟨hcne, hpne⟩]
    rcases selectContracts_eq_some delta_low delta_high (some e) minAllowedDate
      tickers c p h with ⟨h1, h2⟩
    rw [hse] at h1 h2
    exact ⟨pickBest_spec _ _ _ h1, pickBest_spec _ _ _ h2⟩
  · norm_num +decide [selectContracts, filteredContracts, targetDelta, selectedExpiry,
      callsAt, putsAt, expiryKeys, isCall, callCandidates, putCandidates, pickBest,
      pickStep, abs_of_nonneg, List.filterMap_cons, List.filterMap_nil, List.filter_cons, List.filter_nil,
      List.dedup_nil, List.dedup_cons_of_mem, List.dedup_cons_of_not_mem, List.min?_nil,
      List.min?_cons, List.foldl_cons, List.foldl_nil, List.mem_cons, List.mem_singleton,
      List.not_mem_nil]

/-- Witness for C7: in the example, the returned call is a member of the
expiry-0 call bucket. -/
theorem selectContracts_delta_range_and_best_witness :
    (⟨"C19", 19/100, "call_options", some 0⟩ : OptionContract) ∈
      callsAt 0 (filteredContracts (1/10) (1/5)
        [⟨"C19", 19/100, "call_options", some 0⟩,
         ⟨"C12", 12/100, "call_options", some 0⟩,
         ⟨"P15", 15/100, "put_options", some 0⟩]) :=
  ((selectContracts_delta_range_and_best.2.1 (1/10) (1/5) 0 0
      [⟨"C19", 19/100, "call_options", some 0⟩,
       ⟨"C12", 12/100, "call_options", some 0⟩,
       ⟨"P15", 15/100, "put_options", some 0⟩]
      ⟨"C19", 19/100, "call_options", some 0⟩
      ⟨"P15", 15/100, "put_options", some 0⟩
      (List.ne_nil_of_mem (a := ⟨"C19", 19/100, "call_options", some 0⟩)
        (by norm_num +decide [callsAt, filteredContracts, isCall, abs_of_nonneg,
          List.filterMap_cons, List.filterMap_nil, List.filter_cons, List.filter_nil,
      List.dedup_nil, List.dedup_cons_of_mem, List.dedup_cons_of_not_mem, List.min?_nil,
      List.min?_cons, List.foldl_cons, List.foldl_nil, List.mem_cons, List.mem_singleton,
      List.not_mem_nil]))
      (List.ne_nil_of_mem (a := ⟨"P15", 15/100, "put_options", some 0⟩)
        (by norm_num +decide [putsAt, filteredContracts, isCall, abs_of_nonneg,
          List.filterMap_cons, List.filterMap_nil, List.filter_cons, List.filter_nil,
      List.dedup_nil, List.dedup_cons_of_mem, List.dedup_cons_of_not_mem, List.min?_nil,
      List.min?_cons, List.foldl_cons, List.foldl_nil, List.mem_cons, List.mem_singleton,
      List.not_mem_nil]))
      selectContracts_delta_range_and_best.2.2).1).1

end StrangleEngine
